import Mathlib

/-!
Verification of the bulk export/import engine
(`src/apps/api/src/tools/db-export/index.ts`, class `DynamoDBExporter`).

The engine is embedded shallowly:
* JSON / JavaScript values are modelled by `JVal` (numbers as integers;
  floating point is not exercised by any claim).
* The DynamoDB table is an association list from primary key
  (the `PK`/`SK` attribute values) to the stored item.
* Remote-call failures (network, throttling) are injected through a
  boolean oracle `failAt : Nat → Bool`; condition-check failures of
  conditional puts are computed from the table state itself.
* `import` is `runImport`, `export` is `runExport`, and
  `extractEntityType` keeps its source name (`import`/`export` are Lean
  keywords).
-/

/-- A JSON / JavaScript value as produced by `JSON.parse`.  Numbers are
modelled as integers, which suffices for every property considered here. -/
inductive JVal where
  | jnull
  | jbool (b : Bool)
  | jnum (n : Int)
  | jstr (s : String)
  | jarr (elems : List JVal)
  | jobj (fields : List (String × JVal))
deriving Repr

mutual

/-- Structural equality of `JVal`s (JavaScript deep equality is not used by
the source; this is only needed to model key lookup in the table). -/
def JVal.beq : JVal → JVal → Bool
  | .jnull, .jnull => true
  | .jbool a, .jbool b => a == b
  | .jnum a, .jnum b => a == b
  | .jstr a, .jstr b => a == b
  | .jarr a, .jarr b => JVal.beqList a b
  | .jobj a, .jobj b => JVal.beqFields a b
  | _, _ => false

def JVal.beqList : List JVal → List JVal → Bool
  | [], [] => true
  | x :: xs, y :: ys => JVal.beq x y && JVal.beqList xs ys
  | _, _ => false

def JVal.beqFields : List (String × JVal) → List (String × JVal) → Bool
  | [], [] => true
  | (k₁, v₁) :: xs, (k₂, v₂) :: ys =>
      k₁ == k₂ && JVal.beq v₁ v₂ && JVal.beqFields xs ys
  | _, _ => false

end

instance : BEq JVal := ⟨JVal.beq⟩

/-- JavaScript truthiness of a value (`if (v) ...`).  `NaN` does not occur in
the integer model. -/
def truthy : JVal → Bool
  | .jnull => false
  | .jbool b => b
  | .jnum n => n != 0
  | .jstr s => s != ""
  | .jarr _ => true
  | .jobj _ => true

/-- Property access `v.k`: defined on objects, `undefined` (here `none`) on
arrays, strings, numbers and booleans.  (Access on `null` throws in
JavaScript; the one place the source dereferences a possibly-`null` value is
modelled explicitly in `parseItems`.) -/
def getField : JVal → String → Option JVal
  | .jobj fs, k => fs.lookup k
  | _, _ => none

/-- `Object.values(v)` for a truthy `v`: the field values of an object, the
elements of an array, the one-character strings of a string, and `[]` for
numbers and booleans. -/
def objValues : JVal → List JVal
  | .jobj fs => fs.map Prod.snd
  | .jarr xs => xs
  | .jstr s => s.data.map (fun c => .jstr (String.mk [c]))
  | _ => []

/-- `Array.prototype.flat()` (one level). -/
def flat1 (xs : List JVal) : List JVal :=
  (xs.map (fun v => match v with | .jarr ys => ys | v => [v])).flatten

/-- Errors raised while extracting the record list from a parsed import
document. -/
inductive ImportError where
  | formatError
  | typeError
deriving DecidableEq, Repr

/-- Record extraction of `import` (index.ts lines 387–407):

    if (Array.isArray(data))                          items = data;
    else if (data.items && Array.isArray(data.items)) items = data.items;
    else if (data.itemsByType)                        items = Object.values(data.itemsByType).flat();
    else throw new Error("Invalid file format. ...");

`data.items` on a top-level `null` document throws a `TypeError` before the
format check is reached. -/
def parseItems (data : JVal) : Except ImportError (List JVal) :=
  match data with
  | .jarr xs => .ok xs
  | .jnull => .error .typeError
  | d =>
    match getField d "items" with
    | some (.jarr xs) => .ok xs
    | _ =>
      match getField d "itemsByType" with
      | some v => if truthy v then .ok (flat1 (objValues v)) else .error .formatError
      | none => .error .formatError

/-- Modelled from the spec: the three accepted import-document shapes as the
spec words them — a bare array, an object whose `items` field is an array, or
an object whose `itemsByType` field is a map (object) of type → records.
Used only to compare the spec's acceptance set with `parseItems`. -/
def specAcceptedShape (d : JVal) : Bool :=
  (match d with | .jarr _ => true | _ => false) ||
  (match getField d "items" with | some (.jarr _) => true | _ => false) ||
  (match getField d "itemsByType" with | some (.jobj _) => true | _ => false)

/-- The shapes `parseItems` actually accepts: a bare array, a non-`null`
document whose `items` field is an array, or a non-`null` document with a
truthy `itemsByType` field (of any type). -/
def codeAcceptedShape (d : JVal) : Bool :=
  match d with
  | .jarr _ => true
  | .jnull => false
  | d =>
    (match getField d "items" with | some (.jarr _) => true | _ => false) ||
    (match getField d "itemsByType" with | some v => truthy v | none => false)

/-- First dash-delimited segment of a string: `s.split("-")[0]`. -/
def firstSeg (s : String) : String :=
  ⟨s.data.takeWhile (fun c => c ≠ '-')⟩

/-- `s.toUpperCase()` on the ASCII fragment exercised here. -/
def jsToUpper (s : String) : String :=
  ⟨s.data.map Char.toUpper⟩

/-- The regular-expression match `s.match(/^([A-Z]+)#/)`: a maximal non-empty
run of uppercase ASCII letters followed by `#`.  (Greedy matching needs no
backtracking here: the character after the maximal run is `#` or the whole
pattern fails.) -/
def tagFromKey (s : String) : Option String :=
  let tag := s.data.takeWhile (fun c => 'A' ≤ c && c ≤ 'Z')
  if tag.isEmpty then none
  else if (s.data.drop tag.length).head? == some '#' then some ⟨tag⟩
  else none

/-- The guard `item.PK && typeof item.PK === "string"` followed by the
prefix match, for one key attribute. -/
def tagOfKeyField : Option JVal → Option String
  | some (.jstr s) => if s = "" then none else tagFromKey s
  | _ => none

/-- The legacy-id fallback of `extractEntityType` (index.ts lines 320–328):

    if (item.id && typeof item.id === "string") {
      const parts = item.id.split("-");
      if (parts.length > 0) return parts[0].toUpperCase();
    }
    return "UNKNOWN";

`split` never returns an empty array, so the `parts.length > 0` guard always
holds and the branch returns `parts[0].toUpperCase()` whenever `id` is a
non-empty string. -/
def idFallback (item : JVal) : JVal :=
  match getField item "id" with
  | some (.jstr s) => if s = "" then .jstr "UNKNOWN" else .jstr (jsToUpper (firstSeg s))
  | _ => .jstr "UNKNOWN"

/-- `DynamoDBExporter.extractEntityType` (index.ts lines 298–329).  The
`entityType` fallback returns the attribute's value verbatim (`return
item.entityType;`), so the result is a `JVal`, not necessarily a string. -/
def extractEntityType (item : JVal) : JVal :=
  match tagOfKeyField (getField item "PK") with
  | some tag => .jstr tag
  | none =>
    match tagOfKeyField (getField item "SK") with
    | some tag => .jstr tag
    | none =>
      match getField item "entityType" with
      | some v => if truthy v then v else idFallback item
      | none => idFallback item

/-! ## Table model and write semantics -/

/-- A DynamoDB primary key: the item's `PK` and `SK` attribute values
(either may be absent). -/
abbrev ItemKey := Option JVal × Option JVal

/-- The table: an association list from primary key to stored item. -/
abbrev Table := List (ItemKey × JVal)

/-- Primary key of an item. -/
def itemKey (item : JVal) : ItemKey :=
  (getField item "PK", getField item "SK")

/-- Does the stored value carry attribute `k` (DynamoDB
`attribute_exists(k)`)? -/
def hasAttr (v : JVal) (k : String) : Bool :=
  (getField v k).isSome

/-- An unconditional put: replaces the item stored under the same primary
key, or appends a new one. -/
def putItem (tbl : Table) (item : JVal) : Table :=
  let k := itemKey item
  if tbl.any (fun kv => kv.1 == k) then
    tbl.map (fun kv => if kv.1 == k then (k, item) else kv)
  else
    tbl ++ [(k, item)]

/-- Whether the conditional put of `import`'s insert-only mode
(`ConditionExpression: "attribute_not_exists(PK) AND attribute_not_exists(id)"`)
fails its condition check: an item is already stored under the same primary
key and that stored item has a `PK` or an `id` attribute. -/
def condFails (tbl : Table) (item : JVal) : Bool :=
  match tbl.lookup (itemKey item) with
  | some old => hasAttr old "PK" || hasAttr old "id"
  | none => false

/-- One call issued to the store's write path. -/
inductive WriteCall where
  | batchPut (items : List JVal)
  | condPut (item : JVal)
deriving Repr

/-- The options object of `DynamoDBExporter.import`. -/
structure ImportOptions where
  dryRun : Bool := false
  batchSize : Option Nat := none
  overwrite : Option Bool := none

/-- `const batchSize = options?.batchSize || 25;` — `0` and absence are
falsy, any other provided value is used verbatim (no clamping). -/
def effBatchSize (o : ImportOptions) : Nat :=
  match o.batchSize with
  | some n => if n = 0 then 25 else n
  | none => 25

/-- `const overwrite = options?.overwrite !== false;`. -/
def effOverwrite (o : ImportOptions) : Bool :=
  o.overwrite != some false

/-- The result record returned by `import`. -/
structure ImportResult where
  imported : Nat
  failed : Nat
  skipped : Nat
deriving DecidableEq, Repr

/-- `Math.ceil(len / bs)`, the number of batches of the import loop. -/
def numBatches (bs len : Nat) : Nat :=
  (len + bs - 1) / bs

/-- The chunks visited by `for (let i = 0; i < items.length; i += batchSize)`
with `batch = items.slice(i, i + batchSize)`: the `k`-th chunk is
`items.slice(k*bs, k*bs + bs)` for `k < ceil(len/bs)`. -/
def chunksOf (bs : Nat) (xs : List JVal) : List (List JVal) :=
  (List.range (numBatches bs xs.length)).map (fun k => (xs.drop (k * bs)).take bs)

/-- Outcome of the insert-only inner loop on one chunk (index.ts lines
464–486): records imported before any error, whether a non-condition error
was thrown (aborting the rest of the chunk), the table afterwards, and the
conditional-put calls issued. -/
structure ChunkOut where
  im : Nat
  errored : Bool
  tbl : Table
  writes : List WriteCall

/-- The insert-only inner loop: one conditional put per record.  A
condition-check failure is silently skipped (`continue`); any other error
(injected by the oracle `failAt` at the record's global index) is rethrown,
so the remaining records of the chunk are never attempted. -/
def runInsertChunk (failAt : Nat → Bool) (tbl : Table) (base : Nat) :
    List JVal → ChunkOut
  | [] => ⟨0, false, tbl, []⟩
  | item :: rest =>
    if failAt base then ⟨0, true, tbl, [.condPut item]⟩
    else if condFails tbl item then
      let r := runInsertChunk failAt tbl (base + 1) rest
      ⟨r.im, r.errored, r.tbl, .condPut item :: r.writes⟩
    else
      let r := runInsertChunk failAt (putItem tbl item) (base + 1) rest
      ⟨r.im + 1, r.errored, r.tbl, .condPut item :: r.writes⟩

/-- Accumulated outcome of the batch loop. -/
structure LoopOut where
  imported : Nat
  failed : Nat
  tbl : Table
  writes : List WriteCall
  delays : Nat

/-- The batch loop of `import` (index.ts lines 439–496).  `ow` selects
overwrite mode (one `BatchWriteCommand` per chunk; the oracle is consulted at
the chunk index, and a failing call fails the whole chunk) versus insert-only
mode (`runInsertChunk`; a thrown non-condition error is caught by the outer
`catch`, which adds the whole chunk's length to `failed` — records of the
chunk already imported stay counted).  After every non-final chunk a fixed
pacing delay is inserted (`if (i + batchSize < items.length)`). -/
def runChunks (ow : Bool) (failAt : Nat → Bool) :
    Nat → Nat → Table → List (List JVal) → LoopOut
  | _, _, tbl, [] => ⟨0, 0, tbl, [], 0⟩
  | ci, base, tbl, chunk :: rest =>
    if ow then
      if failAt ci then
        let r := runChunks ow failAt (ci + 1) (base + chunk.length) tbl rest
        ⟨r.imported, chunk.length + r.failed, r.tbl, .batchPut chunk :: r.writes,
          (if rest.isEmpty then 0 else 1) + r.delays⟩
      else
        let r := runChunks ow failAt (ci + 1) (base + chunk.length)
          (chunk.foldl putItem tbl) rest
        ⟨chunk.length + r.imported, r.failed, r.tbl, .batchPut chunk :: r.writes,
          (if rest.isEmpty then 0 else 1) + r.delays⟩
    else
      let c := runInsertChunk failAt tbl base chunk
      let r := runChunks ow failAt (ci + 1) (base + chunk.length) c.tbl rest
      ⟨c.im + r.imported, (if c.errored then chunk.length else 0) + r.failed,
        r.tbl, c.writes ++ r.writes, (if rest.isEmpty then 0 else 1) + r.delays⟩

/-- Everything observable about one `import` run: the returned result (or
thrown error), the table afterwards, the write calls issued, and the number
of pacing delays inserted. -/
structure RunOut where
  result : Except ImportError ImportResult
  table : Table
  writes : List WriteCall
  delays : Nat

/-- `DynamoDBExporter.import` (index.ts lines 352–509) from the parsed
document onward.  Empty inputs return `{imported:0, failed:0, skipped:0}`
before the dry-run check; dry runs return `{imported:0, failed:0,
skipped: items.length}` without touching the store; live runs return
`{imported, failed, skipped: 0}` — the `skipped` field of the returned
object is the literal `0` in the source. -/
def runImport (doc : JVal) (opts : ImportOptions) (tbl : Table)
    (failAt : Nat → Bool) : RunOut :=
  match parseItems doc with
  | .error e => ⟨.error e, tbl, [], 0⟩
  | .ok items =>
    if items.isEmpty then ⟨.ok ⟨0, 0, 0⟩, tbl, [], 0⟩
    else if opts.dryRun then ⟨.ok ⟨0, 0, items.length⟩, tbl, [], 0⟩
    else
      let r := runChunks (effOverwrite opts) failAt 0 0 tbl
        (chunksOf (effBatchSize opts) items)
      ⟨.ok ⟨r.imported, r.failed, 0⟩, r.tbl, r.writes, r.delays⟩

/-! ## Export model -/

/-- An opaque scan continuation cursor (`LastEvaluatedKey`). -/
abbrev Cursor := Nat

/-- One `ScanCommand` response: the page's items, its `ScannedCount`, and the
continuation cursor (`none` signals exhaustion). -/
structure ScanPage where
  items : List JVal
  scannedCount : Nat
  lastKey : Option Cursor

/-- A scan-page fetch error (network/auth failure), carried verbatim. -/
abbrev ScanErr := String

/-- Everything observable about one `export` run: the scan outcome (items
and scanned count) or the rethrown error, and the documents written to the
filesystem. -/
structure ExportOut where
  result : Except ScanErr (List JVal × Nat)
  filesWritten : List (List JVal × Nat)

/-- The scan loop of `export` (index.ts lines 101–130): a do-while that
accumulates each page's items and scanned count and continues while the
response carries a `LastEvaluatedKey`.  The list holds the successive
responses the store would give; a thrown fetch error aborts the loop. -/
def runScan : List (Except ScanErr ScanPage) → List JVal → Nat →
    Except ScanErr (List JVal × Nat)
  | [], items, sc => .ok (items, sc)
  | .error e :: _, _, _ => .error e
  | .ok pg :: rest, items, sc =>
    match pg.lastKey with
    | none => .ok (items ++ pg.items, sc + pg.scannedCount)
    | some _ => runScan rest (items ++ pg.items) (sc + pg.scannedCount)

/-- `DynamoDBExporter.export` (index.ts lines 83–176): the file write
(`fs.writeFileSync`) happens only after the whole scan loop completed; a
scan error propagates out of the try block and nothing is written. -/
def runExport (responses : List (Except ScanErr ScanPage)) : ExportOut :=
  match runScan responses [] 0 with
  | .error e => ⟨.error e, []⟩
  | .ok res => ⟨.ok res, [res]⟩

/-! ## Concrete fixtures -/

/-- A record keyed `USER#1`. -/
def itemA : JVal := .jobj [("PK", .jstr "USER#1")]

/-- A record keyed `USER#2`. -/
def itemB : JVal := .jobj [("PK", .jstr "USER#2")]

/-- A store that never raises a non-condition error. -/
def noFail : Nat → Bool := fun _ => false

/-- A store whose very first write call raises a non-condition error. -/
def failAtZero : Nat → Bool := fun n => n == 0

/-- Live insert-only options (`overwrite: false`). -/
def insertOnlyOpts : ImportOptions := ⟨false, none, some false⟩

/-- Live defaulted options (overwrite mode, batch size 25). -/
def defaultOpts : ImportOptions := ⟨false, none, none⟩

/-- Whether record extraction succeeds on a document. -/
def parseOk (d : JVal) : Bool :=
  match parseItems d with
  | .ok _ => true
  | .error _ => false

/-! ## Helper lemmas -/

/-- A tag produced by the `^([A-Z]+)#` match is a non-empty string. -/
theorem tagFromKey_ne_empty {s t : String} (h : tagFromKey s = some t) : t ≠ "" := by
  unfold tagFromKey at h
  simp only [] at h
  split_ifs at h with h1 h2
  have h' := Option.some.inj h
  intro hc
  rw [← h'] at hc
  have hdata : s.data.takeWhile (fun c => 'A' ≤ c && c ≤ 'Z') = [] :=
    congrArg String.data hc
  rw [List.isEmpty_iff] at h1
  exact h1 hdata

/-- A tag produced by a key-attribute rule is a non-empty string. -/
theorem tagOfKeyField_ne_empty {v : Option JVal} {t : String}
    (h : tagOfKeyField v = some t) : t ≠ "" := by
  unfold tagOfKeyField at h
  split at h
  · split at h
    · cases h
    · exact tagFromKey_ne_empty h
  · cases h

/-- `jsToUpper` preserves (non-)emptiness: upper-casing maps characters
one-to-one. -/
theorem jsToUpper_eq_empty_iff (s : String) : jsToUpper s = "" ↔ s = "" := by
  constructor
  · intro h
    have hd : s.data.map Char.toUpper = [] := congrArg String.data h
    exact String.ext (List.map_eq_nil_iff.mp hd)
  · intro h
    subst h
    rfl

/-- If a string has no dash, its first dash-delimited segment is the whole
string. -/
theorem firstSeg_of_no_dash {s : String} (h : '-' ∉ s.data) : firstSeg s = s := by
  apply String.ext
  show s.data.takeWhile (fun c => c ≠ '-') = s.data
  apply List.takeWhile_eq_self_iff.mpr
  intro c hc
  simp only [ne_eq, decide_eq_true_eq]
  intro hcd
  subst hcd
  exact h hc

/-- The effective batch size is always positive (`0` and absence fall back
to `25`). -/
theorem effBatchSize_pos (o : ImportOptions) : 0 < effBatchSize o := by
  unfold effBatchSize
  split
  · split
    · exact Nat.zero_lt_succ _
    · omega
  · exact Nat.zero_lt_succ _

/-- Every chunk produced by the batch loop's slicing has at most `bs`
records. -/
theorem chunksOf_length_le {bs : Nat} {xs : List JVal} {c : List JVal}
    (h : c ∈ chunksOf bs xs) : c.length ≤ bs := by
  unfold chunksOf at h
  rcases List.mem_map.mp h with ⟨k, _, rfl⟩
  exact List.length_take_le _ _

/-- A non-empty input that fits in one batch is processed as a single
chunk. -/
theorem chunksOf_single {bs : Nat} {xs : List JVal} (hbs : 0 < bs)
    (hne : xs ≠ []) (hle : xs.length ≤ bs) : chunksOf bs xs = [xs] := by
  have hlen : 0 < xs.length := List.length_pos.mpr hne
  have hnb : numBatches bs xs.length = 1 := by
    unfold numBatches
    have h1 : 1 ≤ (xs.length + bs - 1) / bs :=
      (Nat.le_div_iff_mul_le hbs).mpr (by omega)
    have h2 : (xs.length + bs - 1) / bs < 2 :=
      (Nat.div_lt_iff_lt_mul hbs).mpr (by omega)
    omega
  unfold chunksOf
  rw [hnb, show List.range 1 = [0] from rfl]
  simp only [List.map_cons, List.map_nil, Nat.zero_mul, List.drop_zero]
  rw [List.take_of_length_le hle]

/-- The insert-only inner loop issues only conditional puts, never a batch
write. -/
theorem runInsertChunk_no_batchPut (failAt : Nat → Bool) :
    ∀ (chunk : List JVal) (tbl : Table) (base : Nat) (c : List JVal),
      WriteCall.batchPut c ∉ (runInsertChunk failAt tbl base chunk).writes := by
  intro chunk
  induction chunk with
  | nil =>
    intro tbl base c h
    simp [runInsertChunk] at h
  | cons item rest ih =>
    intro tbl base c h
    unfold runInsertChunk at h
    by_cases hf : failAt base
    · simp [hf] at h
    · by_cases hc : condFails tbl item
      · simp only [hf, hc, if_true, if_false, Bool.false_eq_true] at h
        rcases List.mem_cons.mp h with h1 | h1
        · exact WriteCall.noConfusion h1
        · exact ih tbl (base + 1) c h1
      · simp only [hf, hc, if_true, if_false, Bool.false_eq_true] at h
        rcases List.mem_cons.mp h with h1 | h1
        · exact WriteCall.noConfusion h1
        · exact ih (putItem tbl item) (base + 1) c h1

/-- Every batch write issued by the batch loop carries exactly one of the
chunks it was fed. -/
theorem runChunks_batchPut_mem (ow : Bool) (failAt : Nat → Bool) :
    ∀ (chunks : List (List JVal)) (ci base : Nat) (tbl : Table) (c : List JVal),
      WriteCall.batchPut c ∈ (runChunks ow failAt ci base tbl chunks).writes →
      c ∈ chunks := by
  intro chunks
  induction chunks with
  | nil =>
    intro ci base tbl c h
    simp [runChunks] at h
  | cons chunk rest ih =>
    intro ci base tbl c h
    unfold runChunks at h
    cases ow with
    | true =>
      by_cases hf : failAt ci
      · simp only [hf, if_true] at h
        rcases List.mem_cons.mp h with h1 | h1
        · rw [WriteCall.batchPut.inj h1]
          exact List.mem_cons_self _ _
        · exact List.mem_cons_of_mem _ (ih _ _ _ _ h1)
      · simp only [hf, if_true, if_false, Bool.false_eq_true] at h
        rcases List.mem_cons.mp h with h1 | h1
        · rw [WriteCall.batchPut.inj h1]
          exact List.mem_cons_self _ _
        · exact List.mem_cons_of_mem _ (ih _ _ _ _ h1)
    | false =>
      simp only [if_false, Bool.false_eq_true] at h
      rcases List.mem_append.mp h with h1 | h1
      · exact absurd h1 (runInsertChunk_no_batchPut failAt chunk tbl base c)
      · exact List.mem_cons_of_mem _ (ih _ _ _ _ h1)

/-- If a non-condition error strikes at in-chunk position `j` (and not
earlier), the insert-only loop reports the error and has issued exactly
`j + 1` conditional puts: the records after position `j` are never
attempted. -/
theorem runInsertChunk_err_spec (failAt : Nat → Bool) :
    ∀ (j : Nat) (chunk : List JVal) (tbl : Table) (base : Nat),
      j < chunk.length →
      failAt (base + j) = true →
      (∀ i, i < j → failAt (base + i) = false) →
      (runInsertChunk failAt tbl base chunk).errored = true ∧
      (runInsertChunk failAt tbl base chunk).writes.length = j + 1 := by
  intro j
  induction j with
  | zero =>
    intro chunk tbl base hlt hfail _
    match chunk, hlt with
    | item :: rest, _ =>
      have hfb : failAt base = true := by simpa using hfail
      simp [runInsertChunk, hfb]
  | succ j ih =>
    intro chunk tbl base hlt hfail hprev
    match chunk, hlt with
    | item :: rest, hlt =>
      have h0 : failAt base = false := by simpa using hprev 0 (Nat.succ_pos j)
      have hrest : j < rest.length := by simpa using hlt
      have hfail' : failAt (base + 1 + j) = true := by
        have : base + 1 + j = base + (j + 1) := by omega
        rw [this]; exact hfail
      have hprev' : ∀ i, i < j → failAt (base + 1 + i) = false := by
        intro i hi
        have : base + 1 + i = base + (i + 1) := by omega
        rw [this]; exact hprev (i + 1) (by omega)
      unfold runInsertChunk
      by_cases hc : condFails tbl item
      · simp only [h0, hc, if_true, if_false, Bool.false_eq_true]
        have := ih rest tbl (base + 1) hrest hfail' hprev'
        exact ⟨this.1, by simp [this.2]⟩
      · simp only [h0, hc, if_true, if_false, Bool.false_eq_true]
        have := ih rest (putItem tbl item) (base + 1) hrest hfail' hprev'
        exact ⟨this.1, by simp [this.2]⟩

/-- The scan loop propagates the first fetch error: if every earlier page
carried a continuation cursor, the failing fetch is reached and its error is
rethrown. -/
theorem runScan_err (e : ScanErr) (rest : List (Except ScanErr ScanPage)) :
    ∀ (prev : List ScanPage), (∀ p ∈ prev, p.lastKey.isSome = true) →
      ∀ (items : List JVal) (sc : Nat),
        runScan (prev.map .ok ++ .error e :: rest) items sc = .error e := by
  intro prev
  induction prev with
  | nil =>
    intro _ items sc
    simp [runScan]
  | cons p prev ih =>
    intro hall items sc
    have hp : p.lastKey.isSome = true := hall p (List.mem_cons_self _ _)
    rcases Option.isSome_iff_exists.mp hp with ⟨c, hc⟩
    simp only [List.map_cons, List.cons_append, runScan, hc]
    exact ih (fun q hq => hall q (List.mem_cons_of_mem _ hq)) _ _

/-- A non-empty string whose first dash-delimited segment is empty begins
with a dash. -/
theorem head_dash_of_firstSeg_empty {s : String} (hne : s ≠ "")
    (h : firstSeg s = "") : s.data.head? = some '-' := by
  have hdata : s.data.takeWhile (fun c => c ≠ '-') = [] := congrArg String.data h
  cases hsd : s.data with
  | nil => exact absurd (String.ext hsd) hne
  | cons c rest =>
    rw [hsd, List.takeWhile_cons] at hdata
    split_ifs at hdata with hpc
    have hc : c = '-' := by simpa using hpc
    rw [hc]
    rfl

/-- The legacy-id fallback returns a non-empty string except when the `id`
attribute is a dash-leading string, in which case it returns `""`. -/
theorem idFallback_spec (item : JVal) :
    (∃ s, idFallback item = .jstr s ∧ s ≠ "") ∨
    (∃ s, getField item "id" = some (.jstr s) ∧ s.data.head? = some '-' ∧
      idFallback item = .jstr "") := by
  rcases hid : getField item "id" with _ | v
  · left
    refine ⟨"UNKNOWN", ?_, by decide⟩
    unfold idFallback
    rw [hid]
  · cases v with
    | jstr s =>
      have hred : idFallback item =
          if s = "" then .jstr "UNKNOWN" else .jstr (jsToUpper (firstSeg s)) := by
        unfold idFallback
        rw [hid]
      by_cases hs : s = ""
      · left
        exact ⟨"UNKNOWN", by rw [hred, if_pos hs], by decide⟩
      · by_cases hfs : firstSeg s = ""
        · right
          refine ⟨s, rfl, head_dash_of_firstSeg_empty hs hfs, ?_⟩
          rw [hred, if_neg hs, hfs]
          rfl
        · left
          refine ⟨jsToUpper (firstSeg s), by rw [hred, if_neg hs], ?_⟩
          intro hc
          exact hfs ((jsToUpper_eq_empty_iff _).mp hc)
    | jnull =>
      left
      refine ⟨"UNKNOWN", ?_, by decide⟩
      unfold idFallback
      rw [hid]
    | jbool b =>
      left
      refine ⟨"UNKNOWN", ?_, by decide⟩
      unfold idFallback
      rw [hid]
    | jnum n =>
      left
      refine ⟨"UNKNOWN", ?_, by decide⟩
      unfold idFallback
      rw [hid]
    | jarr xs =>
      left
      refine ⟨"UNKNOWN", ?_, by decide⟩
      unfold idFallback
      rw [hid]
    | jobj gs =>
      left
      refine ⟨"UNKNOWN", ?_, by decide⟩
      unfold idFallback
      rw [hid]

/-- The batch loop on a single insert-only chunk: the outer `catch` turns a
reported error into `failed = chunk.length`, and no further chunk runs. -/
theorem runChunks_single_insert (failAt : Nat → Bool) (ci base : Nat)
    (tbl : Table) (chunk : List JVal) :
    runChunks false failAt ci base tbl [chunk] =
      ⟨(runInsertChunk failAt tbl base chunk).im,
       if (runInsertChunk failAt tbl base chunk).errored then chunk.length else 0,
       (runInsertChunk failAt tbl base chunk).tbl,
       (runInsertChunk failAt tbl base chunk).writes, 0⟩ := by
  unfold runChunks
  unfold runChunks
  simp

/-! ## Claim theorems -/

/-- C1: the claim states that every non-dry-run import satisfies
`imported + failed + skipped = total parsed records`.  The code violates it:
importing one already-present record in insert-only mode skips the record via
`continue` but returns the hard-coded `skipped: 0`, so the counters sum to
`0` while one record was parsed. -/
theorem import_counter_sum_code_bug :
    parseItems (.jarr [itemA]) = .ok [itemA] ∧
    (runImport (.jarr [itemA]) insertOnlyOpts (putItem [] itemA) noFail).result =
      .ok ⟨0, 0, 0⟩ ∧
    (0 + 0 + 0 : Nat) ≠ 1 := by
  exact ⟨rfl, rfl, by decide⟩

/-- C2: the claim states that a second insert-only import of the same file
on the unchanged table returns `imported = 0, skipped = N`.  The code's first
run matches the claim (`imported = 1, skipped = 0` for `N = 1`), but the
second run returns `skipped = 0` instead of `N = 1`: condition-check
failures are skipped without being counted. -/
theorem import_idempotence_code_bug :
    (runImport (.jarr [itemA]) insertOnlyOpts [] noFail).result = .ok ⟨1, 0, 0⟩ ∧
    (runImport (.jarr [itemA]) insertOnlyOpts
      (runImport (.jarr [itemA]) insertOnlyOpts [] noFail).table noFail).result =
      .ok ⟨0, 0, 0⟩ := by
  exact ⟨rfl, rfl⟩

/-- C3: a dry-run import performs zero store write calls, leaves the table
unchanged, inserts no pacing delay, and returns
`{imported: 0, failed: 0, skipped: totalRecords}` (the empty-input early
return yields the same counters since `totalRecords = 0` there). -/
theorem dryRun_import_no_writes (doc : JVal) (opts : ImportOptions)
    (tbl : Table) (failAt : Nat → Bool) (items : List JVal)
    (hp : parseItems doc = .ok items) (hd : opts.dryRun = true) :
    runImport doc opts tbl failAt = ⟨.ok ⟨0, 0, items.length⟩, tbl, [], 0⟩ := by
  unfold runImport
  rw [hp]
  by_cases he : items.isEmpty
  · have h0 : items = [] := List.isEmpty_iff.mp he
    subst h0
    simp
  · simp [he, hd]

/-- Witness for C3 at a one-record document. -/
theorem dryRun_import_no_writes_witness :
    runImport (.jarr [.jnull]) ⟨true, none, none⟩ [] noFail =
      ⟨.ok ⟨0, 0, 1⟩, [], [], 0⟩ :=
  dryRun_import_no_writes (.jarr [.jnull]) ⟨true, none, none⟩ [] noFail
    [.jnull] rfl rfl

/-- C4 counterexample: the claim states `classify` always returns a
non-empty string, explicitly including dash-leading field values; but on the
record `{id: "-x"}` the code returns `"".toUpperCase() = ""` — the first
dash-delimited segment of `"-x"` is empty. -/
theorem classify_empty_string_cex :
    extractEntityType (.jobj [("id", .jstr "-x")]) = .jstr "" ∧
    ("" : String).length = 0 := by
  exact ⟨rfl, rfl⟩

/-- C4 amended: `classify` is a total function (hence terminating and
deterministic), and its result is a non-empty string except in exactly two
source-visible cases: a truthy `entityType` attribute is returned verbatim
(and need not be a string at all), and a dash-leading legacy `id` yields the
empty string. -/
theorem classify_total_amended (fs : List (String × JVal)) :
    (∃ s, extractEntityType (.jobj fs) = .jstr s ∧ s ≠ "") ∨
    (∃ v, getField (.jobj fs) "entityType" = some v ∧ truthy v = true ∧
      extractEntityType (.jobj fs) = v) ∨
    (∃ s, getField (.jobj fs) "id" = some (.jstr s) ∧ s.data.head? = some '-' ∧
      extractEntityType (.jobj fs) = .jstr "") := by
  rcases hPK : tagOfKeyField (getField (JVal.jobj fs) "PK") with _ | tag
  · rcases hSK : tagOfKeyField (getField (JVal.jobj fs) "SK") with _ | tag
    · have hred : extractEntityType (JVal.jobj fs) =
          (match getField (JVal.jobj fs) "entityType" with
           | some v => if truthy v then v else idFallback (JVal.jobj fs)
           | none => idFallback (JVal.jobj fs)) := by
        unfold extractEntityType
        rw [hPK, hSK]
      rcases hET : getField (JVal.jobj fs) "entityType" with _ | v
      · rw [hET] at hred
        dsimp only at hred
        rcases idFallback_spec (JVal.jobj fs) with ⟨s, h1, h2⟩ | ⟨s, h1, h2, h3⟩
        · exact Or.inl ⟨s, hred.trans h1, h2⟩
        · exact Or.inr (Or.inr ⟨s, h1, h2, hred.trans h3⟩)
      · rw [hET] at hred
        dsimp only at hred
        by_cases htv : truthy v
        · refine Or.inr (Or.inl ⟨v, rfl, htv, ?_⟩)
          rw [hred, if_pos htv]
        · have hred' : extractEntityType (JVal.jobj fs) = idFallback (JVal.jobj fs) := by
            rw [hred, if_neg htv]
          rcases idFallback_spec (JVal.jobj fs) with ⟨s, h1, h2⟩ | ⟨s, h1, h2, h3⟩
          · exact Or.inl ⟨s, hred'.trans h1, h2⟩
          · exact Or.inr (Or.inr ⟨s, h1, h2, hred'.trans h3⟩)
    · refine Or.inl ⟨tag, ?_, tagOfKeyField_ne_empty hSK⟩
      unfold extractEntityType
      rw [hPK, hSK]
  · refine Or.inl ⟨tag, ?_, tagOfKeyField_ne_empty hPK⟩
    unfold extractEntityType
    rw [hPK]

/-- C5 counterexample: the claim states that a record with no key-pattern
match, no `entityType`, and an `id` containing no dash classifies as
`"UNKNOWN"`; but on `{id: "abc"}` the code returns `"ABC"` — `split("-")`
on a dashless string returns the whole string as its only segment, and the
`parts.length > 0` guard is always true. -/
theorem classify_no_dash_cex :
    extractEntityType (.jobj [("id", .jstr "abc")]) = .jstr "ABC" ∧
    getField (.jobj [("id", .jstr "abc")]) "entityType" = none ∧
    ("abc" : String).data.contains '-' = false ∧
    JVal.jstr "ABC" ≠ JVal.jstr "UNKNOWN" := by
  refine ⟨rfl, rfl, rfl, fun h => ?_⟩
  have h' := JVal.jstr.inj h
  exact absurd h' (by decide)

/-- C5 amended: when no key rule fires and `entityType` is absent or falsy,
any truthy string `id` — with or without a dash — classifies as the
upper-cased first dash-delimited segment; for a dashless `id` that segment
is the entire `id`, so the result is the whole `id` upper-cased, not
`"UNKNOWN"`.  (`"UNKNOWN"` is returned only when `id` is absent, empty or
not a string.) -/
theorem classify_id_rule_amended (fs : List (String × JVal)) (s : String)
    (hPK : tagOfKeyField (getField (.jobj fs) "PK") = none)
    (hSK : tagOfKeyField (getField (.jobj fs) "SK") = none)
    (hET : ∀ v, getField (.jobj fs) "entityType" = some v → truthy v = false)
    (hid : getField (.jobj fs) "id" = some (.jstr s))
    (hs : s ≠ "") :
    extractEntityType (.jobj fs) = .jstr (jsToUpper (firstSeg s)) ∧
    ('-' ∉ s.data → extractEntityType (.jobj fs) = .jstr (jsToUpper s)) := by
  have hfall : idFallback (.jobj fs) = .jstr (jsToUpper (firstSeg s)) := by
    unfold idFallback
    rw [hid]
    dsimp only
    rw [if_neg hs]
  have hred : extractEntityType (.jobj fs) = .jstr (jsToUpper (firstSeg s)) := by
    unfold extractEntityType
    rw [hPK, hSK]
    dsimp only
    rcases hET' : getField (.jobj fs) "entityType" with _ | v
    · dsimp only
      exact hfall
    · dsimp only
      rw [hET v hET']
      simpa using hfall
  refine ⟨hred, fun hnd => ?_⟩
  rw [hred, firstSeg_of_no_dash hnd]

/-- Witness for C5 amended: `{id: "po-123"}` classifies as `"PO"`. -/
theorem classify_id_rule_amended_witness :
    extractEntityType (.jobj [("id", .jstr "po-123")]) =
      .jstr (jsToUpper (firstSeg "po-123")) :=
  (classify_id_rule_amended [("id", .jstr "po-123")] "po-123" rfl rfl
    (fun v hv => Option.noConfusion (show (none : Option JVal) = some v from hv))
    rfl (by decide)).1

/-- C10: an import whose document parses to an empty record list returns
`{imported: 0, failed: 0, skipped: 0}` before the dry-run check, with zero
store write calls, an unchanged table and no pacing delay, for every
combination of options. -/
theorem empty_import_noop (doc : JVal) (opts : ImportOptions) (tbl : Table)
    (failAt : Nat → Bool) (hp : parseItems doc = .ok []) :
    runImport doc opts tbl failAt = ⟨.ok ⟨0, 0, 0⟩, tbl, [], 0⟩ := by
  unfold runImport
  rw [hp]
  simp

/-- Witness for C10 at an empty grouped document with live insert-only
options. -/
theorem empty_import_noop_witness :
    runImport (.jobj [("itemsByType", .jobj [])]) ⟨false, some 7, some false⟩
      [] noFail = ⟨.ok ⟨0, 0, 0⟩, [], [], 0⟩ :=
  empty_import_noop (.jobj [("itemsByType", .jobj [])]) ⟨false, some 7, some false⟩
    [] noFail rfl

/-- C6 counterexample: the claim states chunks have size
`min(options.batchSize, 25)`; but with `batchSize = 26` a 26-record input is
sent as a single batch write of 26 records — the code never clamps the
caller-provided batch size to the 25-record ceiling. -/
theorem batch_no_clamp_cex :
    (runImport (.jarr (List.replicate 26 JVal.jnull)) ⟨false, some 26, none⟩
      [] noFail).writes = [.batchPut (List.replicate 26 JVal.jnull)] ∧
    (List.replicate 26 JVal.jnull).length = 26 ∧ ¬(26 ≤ 25) := by
  exact ⟨rfl, rfl, by decide⟩

/-- C6 amended: every batch write carries at most `effBatchSize options`
records, where the effective batch size is the caller's `batchSize` taken
verbatim (`0` or absent falls back to 25) with no clamping to the store's
25-record ceiling; under the default options (effective size 25) a 26-record
input is split into chunks of 25 and 1. -/
theorem batch_chunk_size_amended :
    (∀ (doc : JVal) (opts : ImportOptions) (tbl : Table) (failAt : Nat → Bool)
      (c : List JVal),
        WriteCall.batchPut c ∈ (runImport doc opts tbl failAt).writes →
        c.length ≤ effBatchSize opts) ∧
    (chunksOf (effBatchSize defaultOpts) (List.replicate 26 JVal.jnull)).map
      List.length = [25, 1] := by
  refine ⟨?_, rfl⟩
  intro doc opts tbl failAt c h
  unfold runImport at h
  rcases hp : parseItems doc with e | items
  · rw [hp] at h
    simp at h
  · rw [hp] at h
    dsimp only at h
    by_cases he : items.isEmpty
    · simp [he] at h
    · by_cases hd : opts.dryRun
      · simp [he, hd] at h
      · simp only [he, hd, Bool.false_eq_true, if_false] at h
        exact chunksOf_length_le (runChunks_batchPut_mem _ _ _ _ _ _ _ h)

/-- Witness for C6 amended at a one-record default-options import. -/
theorem batch_chunk_size_amended_witness :
    ([JVal.jnull] : List JVal).length ≤ effBatchSize defaultOpts :=
  batch_chunk_size_amended.1 (.jarr [.jnull]) defaultOpts [] noFail [.jnull]
    (List.mem_cons_self _ _)

/-- C7 counterexample: the claim states that in insert-only mode a
non-condition per-record error fails only that record and the chunk's other
records are still attempted; but when the first of two records in a chunk
errors, the code rethrows into the outer `catch`, counts the whole chunk
(`failed = 2`, not `1`) and never issues a write for the second record. -/
theorem insert_error_chunk_cex :
    (runImport (.jarr [itemA, itemB]) insertOnlyOpts [] failAtZero).result =
      .ok ⟨0, 2, 0⟩ ∧
    (runImport (.jarr [itemA, itemB]) insertOnlyOpts [] failAtZero).writes =
      [.condPut itemA] := by
  exact ⟨rfl, rfl⟩

/-- C7 amended: in insert-only mode, a non-condition error at in-chunk
position `j` (with no earlier error) aborts the remainder of the chunk —
exactly `j + 1` conditional puts are issued — and the outer `catch` counts
the entire chunk's length as failed (records of the chunk imported before
the error additionally stay counted as imported); stated for an import that
fits in a single chunk. -/
theorem insert_error_aborts_chunk_amended (items : List JVal)
    (opts : ImportOptions) (tbl : Table) (failAt : Nat → Bool) (j : Nat)
    (hdr : opts.dryRun = false) (how : opts.overwrite = some false)
    (hne : items ≠ []) (hle : items.length ≤ effBatchSize opts)
    (hj : j < items.length) (hfail : failAt j = true)
    (hprev : ∀ i, i < j → failAt i = false) :
    (runImport (.jarr items) opts tbl failAt).result =
      .ok ⟨(runInsertChunk failAt tbl 0 items).im, items.length, 0⟩ ∧
    (runImport (.jarr items) opts tbl failAt).writes.length = j + 1 := by
  have hov : effOverwrite opts = false := by
    unfold effOverwrite
    rw [how]
    rfl
  have hchunks : chunksOf (effBatchSize opts) items = [items] :=
    chunksOf_single (effBatchSize_pos opts) hne hle
  have hspec := runInsertChunk_err_spec failAt j items tbl 0 hj
    (by simpa using hfail) (by intro i hi; simpa using hprev i hi)
  have hie : items.isEmpty = false := by
    cases items with
    | nil => exact absurd rfl hne
    | cons a l => rfl
  unfold runImport
  rw [show parseItems (.jarr items) = .ok items from rfl]
  dsimp only
  simp only [hie, hdr, Bool.false_eq_true, if_false]
  rw [hov, hchunks, runChunks_single_insert]
  rw [hspec.1]
  refine ⟨by simp, ?_⟩
  simpa using hspec.2

/-- Witness for C7 amended: two records, error on the first write. -/
theorem insert_error_aborts_chunk_amended_witness :
    (runImport (.jarr [itemA, itemB]) insertOnlyOpts [] failAtZero).writes.length =
      0 + 1 :=
  (insert_error_aborts_chunk_amended [itemA, itemB] insertOnlyOpts [] failAtZero 0
    rfl rfl (List.cons_ne_nil _ _) (by decide) (by decide) rfl
    (fun i hi => absurd hi (Nat.not_lt_zero i))).2

/-- C8: if any scan-page fetch of `export` fails (all earlier pages having
returned a continuation cursor, so the failing fetch is reached), the
operation aborts with that error and no output file — not even a partial
one — is written. -/
theorem export_scan_failure_no_file (prev : List ScanPage) (e : ScanErr)
    (rest : List (Except ScanErr ScanPage))
    (h : ∀ p ∈ prev, p.lastKey.isSome = true) :
    (runExport (prev.map .ok ++ .error e :: rest)).result = .error e ∧
    (runExport (prev.map .ok ++ .error e :: rest)).filesWritten = [] := by
  have hs := runScan_err e rest prev h [] 0
  unfold runExport
  rw [hs]
  exact ⟨rfl, rfl⟩

/-- Witness for C8: one successful page, then a failing fetch. -/
theorem export_scan_failure_no_file_witness :
    (runExport [.ok ⟨[.jnull], 1, some 0⟩, .error "netdown"]).result =
      .error "netdown" ∧
    (runExport [.ok ⟨[.jnull], 1, some 0⟩, .error "netdown"]).filesWritten = [] :=
  export_scan_failure_no_file [⟨[.jnull], 1, some 0⟩] "netdown" []
    (by
      intro p hp
      rw [List.mem_singleton.mp hp]
      rfl)

/-- C9 counterexample: the claim states the parser accepts exactly the three
shapes (bare array, `{items: [...]}`, `{itemsByType: {...}}`) and fails with
a format error on anything else; but `{itemsByType: 1}` — matching none of
the three shapes, since `1` is not a map — is accepted without any error
(as an empty record list), because the code only tests `itemsByType` for
truthiness. -/
theorem parse_shape_cex :
    specAcceptedShape (.jobj [("itemsByType", .jnum 1)]) = false ∧
    parseItems (.jobj [("itemsByType", .jnum 1)]) = .ok [] ∧
    (runImport (.jobj [("itemsByType", .jnum 1)]) defaultOpts [] noFail).writes =
      [] := by
  exact ⟨rfl, rfl, rfl⟩

/-- C9 amended: extraction succeeds on exactly these documents — a bare
array, a non-null document whose `items` field is an array, or a non-null
document with a truthy `itemsByType` field of any type (not only a map);
whenever extraction fails, the import aborts with that error before any
store write call, leaving the table unchanged. -/
theorem parse_shapes_amended :
    (∀ d : JVal, parseOk d = codeAcceptedShape d) ∧
    (∀ (doc : JVal) (opts : ImportOptions) (tbl : Table) (failAt : Nat → Bool)
      (e : ImportError), parseItems doc = .error e →
        runImport doc opts tbl failAt = ⟨.error e, tbl, [], 0⟩) := by
  constructor
  · intro d
    cases d with
    | jarr xs => rfl
    | jnull => rfl
    | jbool b => rfl
    | jnum n => rfl
    | jstr s => rfl
    | jobj fs =>
      unfold parseOk parseItems codeAcceptedShape
      dsimp only
      rcases h1 : getField (.jobj fs) "items" with _ | v
      · rcases h2 : getField (.jobj fs) "itemsByType" with _ | w
        · rfl
        · dsimp only
          by_cases ht : truthy w
          · rw [ht, if_pos rfl]
            rfl
          · rw [Bool.not_eq_true] at ht
            rw [ht]
            rfl
      · cases v with
        | jarr xs => rfl
        | jnull =>
          rcases h2 : getField (.jobj fs) "itemsByType" with _ | w
          · rfl
          · dsimp only
            by_cases ht : truthy w
            · rw [ht, if_pos rfl]
              rfl
            · rw [Bool.not_eq_true] at ht
              rw [ht]
              rfl
        | jbool b =>
          rcases h2 : getField (.jobj fs) "itemsByType" with _ | w
          · rfl
          · dsimp only
            by_cases ht : truthy w
            · rw [ht, if_pos rfl]
              rfl
            · rw [Bool.not_eq_true] at ht
              rw [ht]
              rfl
        | jnum n =>
          rcases h2 : getField (.jobj fs) "itemsByType" with _ | w
          · rfl
          · dsimp only
            by_cases ht : truthy w
            · rw [ht, if_pos rfl]
              rfl
            · rw [Bool.not_eq_true] at ht
              rw [ht]
              rfl
        | jstr s =>
          rcases h2 : getField (.jobj fs) "itemsByType" with _ | w
          · rfl
          · dsimp only
            by_cases ht : truthy w
            · rw [ht, if_pos rfl]
              rfl
            · rw [Bool.not_eq_true] at ht
              rw [ht]
              rfl
        | jobj gs =>
          rcases h2 : getField (.jobj fs) "itemsByType" with _ | w
          · rfl
          · dsimp only
            by_cases ht : truthy w
            · rw [ht, if_pos rfl]
              rfl
            · rw [Bool.not_eq_true] at ht
              rw [ht]
              rfl
  · intro doc opts tbl failAt e hp
    unfold runImport
    rw [hp]

/-- Witness for C9 amended: the empty object is rejected with the explicit
format error and the import touches nothing. -/
theorem parse_shapes_amended_witness :
    runImport (.jobj []) defaultOpts [] noFail =
      ⟨.error .formatError, [], [], 0⟩ :=
  parse_shapes_amended.2 (.jobj []) defaultOpts [] noFail .formatError rfl
